import Mathlib

/-!
# Verification of the vector retrieval engine

A shallow embedding of the retrieval core of the `devops-incident-agent`
repository, together with theorems settling the specification claims.

Embedded source files:
* `src/file_rag/vector_store.py` — `FileVectorStore` (flat-file variant).
* `src/rag/vector_store.py` — `VectorStoreManager` (server-hosted variant).
* `data/export_to_files.py` — `export_collection`.

Modelling conventions:
* JSON scalar metadata values become `MValue`; Python `==` (which compares
  numeric values across `int` / `float` / `bool`, and is type-sensitive
  between strings and numbers) becomes `pyEq`.
* Python dicts with string keys become association lists in insertion
  order; lookup is first match (keys are unique in all observed data).
* Embedding vectors (Python lists of floats) become `List ℚ`; the
  floating-point cosine-similarity kernel used by the flat-file `search`
  (`sklearn.metrics.pairwise.cosine_similarity`) is abstracted as a
  parameter `sim : List ℚ → List ℚ → ℚ`, since the claims under
  verification are about validation, selection, ordering and result shape,
  which hold uniformly in the score function.  The *shape validation*
  performed by `cosine_similarity` (a `ValueError` when the query width
  differs from the record-matrix width) is modelled explicitly, as is the
  `numpy` error on a ragged nested list.
* `np.argsort(similarities)` is modelled as a stable ascending argsort
  (ties keep ascending index order), the behaviour of `kind='stable'` and
  of numpy's small-array insertion sort; the code then reverses it
  (`[::-1]`) and truncates (`[:limit]`).
-/

instance {ε : Type u} {α : Type v} [DecidableEq ε] [DecidableEq α] :
    DecidableEq (Except ε α) := fun a b =>
  match a, b with
  | .ok x, .ok y => decidable_of_iff (x = y) (by simp)
  | .ok _, .error _ => .isFalse (by simp)
  | .error _, .ok _ => .isFalse (by simp)
  | .error x, .error y => decidable_of_iff (x = y) (by simp)

/-- A JSON/Python scalar metadata value: string, int, float or bool.
Floats are modelled as rationals. -/
inductive MValue where
  | s : String → MValue
  | i : Int → MValue
  | f : ℚ → MValue
  | b : Bool → MValue
deriving Repr, DecidableEq

/-- The numeric value of a Python scalar, when it has one
(`bool` is a numeric type in Python: `True == 1`). -/
def MValue.pyNum : MValue → Option ℚ
  | .s _ => none
  | .i n => some (n : ℚ)
  | .f x => some x
  | .b true => some 1
  | .b false => some 0

/-- Python `==` on scalar values: strings compare by content, numeric
values (`int`, `float`, `bool`) compare by numeric value across types,
and a string never equals a number. -/
def pyEq (a b : MValue) : Bool :=
  match a, b with
  | .s x, .s y => x = y
  | .s _, _ => false
  | _, .s _ => false
  | a, b => a.pyNum = b.pyNum

/-- A Python string-keyed dict of scalar values, in insertion order. -/
abbrev Metadata := List (String × MValue)

/-- Dict lookup: the value stored under key `k`, if present. -/
def mget? (m : Metadata) (k : String) : Option MValue :=
  (m.find? (fun kv => kv.1 = k)).map (·.2)

/-- Python `needle in hay` on lists of characters: `needle` occurs
contiguously in `hay`. -/
def hasPrefixChars : List Char → List Char → Bool
  | [], _ => true
  | _ :: _, [] => false
  | a :: as, b :: bs => a = b && hasPrefixChars as bs

/-- Python substring membership, char-list form. -/
def hasSubstrChars (needle : List Char) : List Char → Bool
  | [] => needle.isEmpty
  | b :: bs => hasPrefixChars needle (b :: bs) || hasSubstrChars needle bs

/-- Python `needle in hay` for strings. -/
def pyIn (needle hay : String) : Bool :=
  hasSubstrChars needle.toList hay.toList

/-- Python `str.lower()` (all names involved are ASCII). -/
def pyLower (s : String) : String := ⟨s.data.map Char.toLower⟩

/-- One element of a flat-file collection (`data/vectors/*.json`), per the
on-disk export format: `{id, text, embedding, metadata}`. -/
structure FlatRecord where
  id : String
  text : String
  embedding : List ℚ
  metadata : Metadata
deriving Repr, DecidableEq

/-- Out-of-range placeholder for positional indexing (never reached: all
indices produced by the argsort are in range). -/
def dfltRec : FlatRecord := ⟨"", "", [], []⟩

/-- `FileVectorStore` state after `_load_data`: the two in-memory
collections (a missing file yields an empty list). -/
structure FileVectorStore where
  incidents_data : List FlatRecord
  runbooks_data : List FlatRecord
deriving Repr, DecidableEq

/-- The error a flat-file `search` call can raise, namely the exceptions
escaping `numpy`/`sklearn` inside it: `np.array` on a ragged nested list,
and the `cosine_similarity` shape check (`ValueError: Incompatible
dimension for X and Y matrices`) when the query width differs from the
record-matrix width. -/
inductive SearchError where
  | inhomogeneous : SearchError
  | dimensionMismatch : Nat → Nat → SearchError
deriving Repr, DecidableEq

/-- One element of the list returned by `FileVectorStore.search`. -/
structure SearchResult where
  id : String
  score : ℚ
  payload : Metadata
  metadata : Metadata
  text : String
deriving Repr, DecidableEq

namespace FileVectorStore

/-- The data source `search` selects for a collection name
(`vector_store.py` lines 64–71): substring dispatch on the lowercase
name; an unknown name selects nothing (the code logs and returns `[]`). -/
def dataFor (store : FileVectorStore) (collection_name : String) :
    Option (List FlatRecord) :=
  if pyIn "incident" (pyLower collection_name) then some store.incidents_data
  else if pyIn "runbook" (pyLower collection_name) then some store.runbooks_data
  else none

/-- A record matches a filter dict when every filter key is present in its
metadata with a Python-equal value (`_apply_filters` inner loop). -/
def matchesFilters (fs : Metadata) (m : Metadata) : Bool :=
  fs.all (fun kv =>
    match mget? m kv.1 with
    | none => false
    | some v => pyEq v kv.2)

/-- `FileVectorStore._apply_filters`: a falsy filter (absent or empty
dict) keeps everything, otherwise keep exactly the matching records. -/
def apply_filters (data : List FlatRecord) (filters : Option Metadata) :
    List FlatRecord :=
  match filters with
  | none => data
  | some fs =>
    if fs = [] then data
    else data.filter (fun item => matchesFilters fs item.metadata)

/-- The record set actually scored: the filtered records, falling back to
the whole collection when filtering removed every record
(`vector_store.py` lines 77–82). -/
def effFiltered (data : List FlatRecord) (filters : Option Metadata) :
    List FlatRecord :=
  let fd := apply_filters data filters
  if fd = [] then data else fd

/-- `np.array([item['embedding'] for item in filtered])` builds a 2-D
matrix only when all rows have one common length, which it reports as the
column count; on a ragged list it raises. -/
def uniformDim : List FlatRecord → Option Nat
  | [] => none
  | r :: rs =>
    if rs.all (fun x => x.embedding.length = r.embedding.length) then
      some r.embedding.length
    else none

/-- The score of index `i` in a score list (in-range by construction). -/
def scoreAt (scores : List ℚ) (i : Nat) : ℚ := scores.getD i 0

/-- The order the modelled `np.argsort` sorts indices by: ascending
score, with equal scores kept in ascending index order. -/
def rankLE (scores : List ℚ) (a b : Nat) : Prop :=
  scoreAt scores a < scoreAt scores b ∨
    (scoreAt scores a = scoreAt scores b ∧ a ≤ b)

instance (scores : List ℚ) : DecidableRel (rankLE scores) := fun a b => by
  unfold rankLE
  infer_instance

/-- `np.argsort(scores)` modelled as a stable ascending argsort.

Scope of the model: `np.argsort`'s default `kind='quicksort'` (introsort)
guarantees only the ascending score order.  It is stable exactly where it
degenerates to insertion sort — arrays no longer than numpy's 16-element
small-array cutoff, the regime of every concrete fixture in this file —
and scrambles equal-score indices above that cutoff.  Consequently only
tie-*insensitive* consequences of this definition (membership, length,
score order — all invariant under permuting equal-score indices) are
claimed as program properties by the universal theorems below; the tie
order itself is exercised solely on concrete small arrays, where this
model coincides with numpy's behaviour. -/
def argsortStable (scores : List ℚ) : List Nat :=
  (List.range scores.length).insertionSort (rankLE scores)

/-- `np.argsort(similarities)[::-1][:limit]` (line 91). -/
def topIndices (scores : List ℚ) (limit : Nat) : List Nat :=
  (argsortStable scores).reverse.take limit

/-- `cosine_similarity(query, matrix)[0]`: the score of every surviving
record against the query, in record order. -/
def scoresOf (sim : List ℚ → List ℚ → ℚ) (q : List ℚ)
    (filtered : List FlatRecord) : List ℚ :=
  filtered.map (fun item => sim q item.embedding)

/-- The result dict built for one selected index (lines 93–102). -/
def mkResult (filtered : List FlatRecord) (scores : List ℚ) (i : Nat) :
    SearchResult :=
  let item := filtered.getD i dfltRec
  { id := item.id
    score := scoreAt scores i
    payload := item.metadata
    metadata := item.metadata
    text := item.text }

/-- `FileVectorStore.search`, parametric in the similarity kernel `sim`
(the floating-point cosine similarity, whose value the claims never
depend on; its shape validation is the explicit dimension check). -/
def search (sim : List ℚ → List ℚ → ℚ) (store : FileVectorStore)
    (collection_name : String) (query_vector : List ℚ) (limit : Nat)
    (filters : Option Metadata) : Except SearchError (List SearchResult) :=
  match dataFor store collection_name with
  | none => .ok []
  | some data =>
    if data = [] then .ok []
    else
      match uniformDim (effFiltered data filters) with
      | none => .error .inhomogeneous
      | some d =>
        if query_vector.length ≠ d then
          .error (.dimensionMismatch query_vector.length d)
        else
          .ok ((topIndices (scoresOf sim query_vector (effFiltered data filters)) limit).map
            (mkResult (effFiltered data filters)
              (scoresOf sim query_vector (effFiltered data filters))))

/-- `FileVectorStore.get_collection_info`. -/
def get_collection_info (store : FileVectorStore) (collection_name : String) :
    Nat × String :=
  let count :=
    if pyIn "incident" (pyLower collection_name) then store.incidents_data.length
    else if pyIn "runbook" (pyLower collection_name) then store.runbooks_data.length
    else 0
  (count, if count > 0 then "ok" else "empty")

end FileVectorStore

/-- A concrete similarity kernel for witnesses and counterexamples: score
1 for a record embedding listed in `high`, otherwise 0.  (`search` is
proved correct for every kernel; a table-valued one keeps concrete
evaluation free of rational arithmetic.) -/
def tableSim (high : List (List ℚ)) (_q r : List ℚ) : ℚ :=
  if r ∈ high then 1 else 0

/-! ## Server-hosted variant (`src/rag/vector_store.py`)

The Qdrant service state is modelled explicitly: a list of collections,
each holding its configuration and its points in storage order.  The
external boundaries — the embedding provider and the uuid generator —
enter as function parameters; network/service failures are outside the
embedded code and not modelled. -/

/-- One Qdrant point: `PointStruct(id, vector, payload)`. -/
structure QdrantPoint where
  id : String
  vector : List ℚ
  payload : Metadata
deriving Repr, DecidableEq

/-- The distance metric of a collection (fixed to cosine by the code). -/
inductive Metric where
  | cosine
deriving Repr, DecidableEq

/-- One server-side collection: name, vector configuration and points. -/
structure QdrantCollection where
  name : String
  dim : Nat
  distance : Metric
  points : List QdrantPoint
deriving Repr, DecidableEq

/-- The Qdrant server state: its collections. -/
abbrev ClientState := List QdrantCollection

/-- Error raised by the `VectorStoreManager` constructor. -/
inductive InitError where
  | invalidStoreType : String → InitError
deriving Repr, DecidableEq

/-- Error raised by `add_documents`. -/
inductive IngestError where
  | emptyInput : IngestError
deriving Repr, DecidableEq

/-- The fields of a constructed `VectorStoreManager` relevant to the
embedded methods (the Qdrant client connection and embedding manager are
external handles). -/
structure VectorStoreManager where
  store_type : String
  collection_name : String
  embedding_model : String
  embedding_dim : Nat
deriving Repr, DecidableEq

namespace VectorStoreManager

/-- `VectorStoreManager._get_embedding_dimension`. -/
def get_embedding_dimension (model : String) : Nat :=
  if model = "text-embedding-3-large" then 3072
  else if model = "text-embedding-3-small" then 1536
  else if model = "text-embedding-ada-002" then 1536
  else 1536

/-- `VectorStoreManager.__init__`: rejects any `store_type` other than
`"incidents"`/`"runbooks"` with a `ValueError` before the embedding
manager or the Qdrant connection is created. -/
def init (store_type embedding_model : String) :
    Except InitError VectorStoreManager :=
  if store_type ≠ "incidents" ∧ store_type ≠ "runbooks" then
    .error (.invalidStoreType store_type)
  else
    .ok { store_type := store_type
          collection_name := "devops_" ++ store_type
          embedding_model := embedding_model
          embedding_dim := get_embedding_dimension embedding_model }

/-- Membership test used by both `create_collection` and
`collection_exists` (`self.collection_name in collection_names`). -/
def collection_exists (mgr : VectorStoreManager) (st : ClientState) : Bool :=
  st.any (fun c => c.name = mgr.collection_name)

/-- `VectorStoreManager.create_collection`: a no-op when the collection
name already exists, otherwise provisions it with the configured
dimension and the cosine metric. -/
def create_collection (mgr : VectorStoreManager) (st : ClientState) :
    ClientState :=
  if mgr.collection_exists st then st
  else st ++ [⟨mgr.collection_name, mgr.embedding_dim, .cosine, []⟩]

/-- `{"content": text, **metadata}`: a dict whose first key is
`"content"` (value overridden by `metadata` when it also has that key),
followed by the remaining metadata entries in order. -/
def payloadWithContent (text : String) (md : Metadata) : Metadata :=
  ("content", (mget? md "content").getD (.s text)) ::
    md.filter (fun kv => ¬ kv.1 = "content")

/-- `client.upsert`: the batch is appended to the named collection's
points (every id is a fresh uuid, so no existing point is replaced). -/
def upsertPoints (st : ClientState) (name : String)
    (pts : List QdrantPoint) : ClientState :=
  st.map (fun c => if c.name = name then { c with points := c.points ++ pts } else c)

/-- `VectorStoreManager.add_documents`, with the batch embedding call
`embed` and the uuid stream `freshId` as external-boundary parameters.
An empty batch raises `ValueError("Cannot add empty documents")` — the
model's `IngestError.emptyInput` — before the collection is touched. -/
def add_documents (mgr : VectorStoreManager)
    (embed : List String → List (List ℚ)) (freshId : Nat → String)
    (st : ClientState) (documents : List (String × Metadata)) :
    Except IngestError ClientState :=
  if documents = [] then .error .emptyInput
  else
    let st1 := mgr.create_collection st
    let texts := documents.map (·.1)
    let metadatas := documents.map (·.2)
    let embeddings := embed texts
    let paired := (texts.zip embeddings).zip metadatas
    let points := paired.enum.map (fun p =>
      { id := freshId p.1
        vector := p.2.1.2
        payload := payloadWithContent p.2.1.1 p.2.2 : QdrantPoint })
    .ok (upsertPoints st1 mgr.collection_name points)

/-- One raw element of a `client.search` response. -/
structure ScoredPoint where
  id : String
  score : ℚ
  payload : Metadata
deriving Repr, DecidableEq

/-- One formatted result of `VectorStoreManager.similarity_search`. -/
structure FormattedResult where
  content : String
  metadata : Metadata
  score : ℚ
deriving Repr, DecidableEq

/-- The string stored under a payload key, with Python's
`payload.get(key, "")` default (observed payloads store strings there). -/
def payloadStr (p : Metadata) (k : String) : String :=
  match mget? p k with
  | some (.s t) => t
  | _ => ""

/-- The result-formatting loop of `VectorStoreManager.similarity_search`
(lines 142–150): the Qdrant query itself happens on the server and is
abstracted as the raw response `results`; each formatted result carries
the payload's `content` as `content` and the payload *minus* the
`content` key as `metadata`. -/
def format_search_results (results : List ScoredPoint) :
    List FormattedResult :=
  results.map (fun r =>
    { content := payloadStr r.payload "content"
      metadata := r.payload.filter (fun kv => ¬ kv.1 = "content")
      score := r.score })

end VectorStoreManager

/-! ## Export pipeline (`data/export_to_files.py`) -/

/-- The points `client.scroll` yields for a collection, in storage order
(the 100-point paging loop of `export_collection` accumulates exactly
this list). -/
def pointsOf (st : ClientState) (name : String) : List QdrantPoint :=
  ((st.find? (fun c => c.name = name)).map (·.points)).getD []

/-- The record `export_collection` writes for one point:
`{id, text: payload.get("text", ""), embedding, metadata: payload}`. -/
def exportPoint (p : QdrantPoint) : FlatRecord :=
  { id := p.id
    text := VectorStoreManager.payloadStr p.payload "text"
    embedding := p.vector
    metadata := p.payload }

/-- `export_collection`: every scrolled point, serialised in order. -/
def export_collection (st : ClientState) (name : String) : List FlatRecord :=
  (pointsOf st name).map exportPoint

/-- `FileVectorStore._load_data` on the two exported files: JSON
round-trips the records unchanged, so loading is the identity on each
record list (a missing file yields `[]`). -/
def load_data (incidents runbooks : List FlatRecord) : FileVectorStore :=
  ⟨incidents, runbooks⟩

/-! ## Concrete fixtures for witnesses and counterexamples -/

/-- First stored incident record of the two-record fixture. -/
def recA : FlatRecord := ⟨"a", "DB pool exhausted", [1], [("service", .s "db")]⟩

/-- Second stored incident record; same embedding as `recA`, so both
receive the same similarity score for any query. -/
def recB : FlatRecord := ⟨"b", "OOM on worker pod", [1], [("service", .s "k8s")]⟩

/-- A record whose metadata holds the Python `int` 1. -/
def recI : FlatRecord := ⟨"i1", "int-metadata record", [2], [("severity", .i 1)]⟩

/-- A record shaped like the export pipeline's output: its metadata map
is a full payload, `"content"` key included. -/
def recC : FlatRecord :=
  ⟨"c", "tc", [1], [("content", .s "tc"), ("service", .s "db")]⟩

/-- Two-record incidents store. -/
def exStore : FileVectorStore := ⟨[recA, recB], []⟩

/-- One-record store holding `recC`. -/
def exStoreC : FileVectorStore := ⟨[recC], []⟩

/-- Fixture similarity kernel: scores embedding `[1]` as 1, others 0. -/
def simEx : List ℚ → List ℚ → ℚ := tableSim [[1]]

/-- The manager `VectorStoreManager("incidents")` constructs. -/
def mgrInc : VectorStoreManager :=
  ⟨"incidents", "devops_incidents", "text-embedding-3-large", 3072⟩

/-- A server state already holding the incidents collection. -/
def stInc : ClientState := [⟨"devops_incidents", 3072, .cosine, []⟩]

/-- Fixture embedding gateway: every text maps to the same short vector
(the model does not validate vector widths server-side, and the exported
`(id, text, metadata)` triple under scrutiny is independent of the
embedding length). -/
def embedConst : List String → List (List ℚ) :=
  fun ts => ts.map (fun _ => [1])

/-- Fixture uuid stream. -/
def uuidFix : Nat → String := fun n => "id-" ++ Nat.repr n

/-- The first sample incident document of the spec's end-to-end
scenario, as an ingestion input. -/
def docDB : String × Metadata := ("DB pool exhausted", [("service", .s "Database")])

/-- A raw server-side search response element whose payload carries a
`content` key, as every payload written by `add_documents` does. -/
def rawP1 : VectorStoreManager.ScoredPoint :=
  ⟨"p1", 1, [("content", .s "x"), ("service", .s "db")]⟩

/-- The first result the tie fixture search returns (the record stored
second). -/
def resTieB : SearchResult :=
  ⟨"b", 1, [("service", .s "k8s")], [("service", .s "k8s")], "OOM on worker pod"⟩

/-- The second result the tie fixture search returns (the record stored
first). -/
def resTieA : SearchResult :=
  ⟨"a", 1, [("service", .s "db")], [("service", .s "db")], "DB pool exhausted"⟩

/-! ## Helper lemmas: filtering -/

namespace FileVectorStore

theorem apply_filters_none (data : List FlatRecord) :
    apply_filters data none = data := rfl

theorem apply_filters_some (data : List FlatRecord) (fs : Metadata) :
    apply_filters data (some fs) =
      if fs = [] then data
      else data.filter (fun item => matchesFilters fs item.metadata) := rfl

theorem apply_filters_sublist (data : List FlatRecord) (fs : Option Metadata) :
    List.Sublist (apply_filters data fs) data := by
  cases fs with
  | none => exact List.Sublist.refl data
  | some f =>
    rw [apply_filters_some]
    by_cases hf : f = []
    · rw [if_pos hf]
    · rw [if_neg hf]
      exact List.filter_sublist data

theorem mem_of_mem_apply_filters {data : List FlatRecord} {fs : Option Metadata}
    {x : FlatRecord} (hx : x ∈ apply_filters data fs) : x ∈ data :=
  (apply_filters_sublist data fs).mem hx

theorem effFiltered_eq_ite (data : List FlatRecord) (fs : Option Metadata) :
    effFiltered data fs =
      if apply_filters data fs = [] then data else apply_filters data fs := rfl

theorem effFiltered_sublist (data : List FlatRecord) (fs : Option Metadata) :
    List.Sublist (effFiltered data fs) data := by
  rw [effFiltered_eq_ite]
  by_cases h : apply_filters data fs = []
  · rw [if_pos h]
  · rw [if_neg h]
    exact apply_filters_sublist data fs

theorem mem_of_mem_effFiltered {data : List FlatRecord} {fs : Option Metadata}
    {x : FlatRecord} (hx : x ∈ effFiltered data fs) : x ∈ data :=
  (effFiltered_sublist data fs).mem hx

theorem effFiltered_ne_nil {data : List FlatRecord} (fs : Option Metadata)
    (h : data ≠ []) : effFiltered data fs ≠ [] := by
  rw [effFiltered_eq_ite]
  by_cases hf : apply_filters data fs = []
  · rw [if_pos hf]; exact h
  · rw [if_neg hf]; exact hf

theorem effFiltered_none (data : List FlatRecord) :
    effFiltered data none = data := by
  rw [effFiltered_eq_ite, apply_filters_none]
  by_cases h : data = [] <;> simp [h]

theorem effFiltered_of_no_match {data : List FlatRecord} {fs : Metadata}
    (h : ∀ r ∈ data, matchesFilters fs r.metadata = false) :
    effFiltered data (some fs) = data := by
  rw [effFiltered_eq_ite, apply_filters_some]
  by_cases hf : fs = []
  · rw [if_pos hf]
    by_cases hd : data = [] <;> simp [hd]
  · rw [if_neg hf]
    have hnil : data.filter (fun item => matchesFilters fs item.metadata) = [] :=
      List.filter_eq_nil_iff.mpr (fun a ha => by simp [h a ha])
    simp [hnil]

theorem uniformDim_eq_some {l : List FlatRecord} {d : Nat} (hne : l ≠ [])
    (h : ∀ r ∈ l, r.embedding.length = d) : uniformDim l = some d := by
  cases l with
  | nil => exact absurd rfl hne
  | cons r rs =>
    have hr : r.embedding.length = d := h r (List.mem_cons_self ..)
    have hall : (rs.all fun x => x.embedding.length = r.embedding.length) = true := by
      rw [List.all_eq_true]
      intro x hx
      simp [h x (List.mem_cons_of_mem _ hx), hr]
    have hd : uniformDim (r :: rs) =
        if (rs.all fun x => x.embedding.length = r.embedding.length) = true then
          some r.embedding.length
        else none := rfl
    rw [hd, if_pos hall, hr]

/-! ## Helper lemmas: ranking -/

theorem rankLE_total (scores : List ℚ) (a b : Nat) :
    rankLE scores a b ∨ rankLE scores b a := by
  unfold rankLE
  rcases lt_trichotomy (scoreAt scores a) (scoreAt scores b) with h | h | h
  · exact Or.inl (Or.inl h)
  · rcases Nat.le_total a b with hab | hab
    · exact Or.inl (Or.inr ⟨h, hab⟩)
    · exact Or.inr (Or.inr ⟨h.symm, hab⟩)
  · exact Or.inr (Or.inl h)

theorem rankLE_trans (scores : List ℚ) (a b c : Nat)
    (h1 : rankLE scores a b) (h2 : rankLE scores b c) : rankLE scores a c := by
  unfold rankLE at h1 h2 ⊢
  rcases h1 with h1 | ⟨h1e, h1i⟩
  · rcases h2 with h2 | ⟨h2e, h2i⟩
    · exact Or.inl (h1.trans h2)
    · exact Or.inl (h2e ▸ h1)
  · rcases h2 with h2 | ⟨h2e, h2i⟩
    · exact Or.inl (h1e ▸ h2)
    · exact Or.inr ⟨h1e.trans h2e, h1i.trans h2i⟩

theorem argsortStable_perm (scores : List ℚ) :
    (argsortStable scores).Perm (List.range scores.length) :=
  List.perm_insertionSort _ _

theorem argsortStable_sorted (scores : List ℚ) :
    (argsortStable scores).Pairwise (rankLE scores) := by
  haveI : IsTotal Nat (rankLE scores) := ⟨rankLE_total scores⟩
  haveI : IsTrans Nat (rankLE scores) := ⟨rankLE_trans scores⟩
  exact List.sorted_insertionSort _ _

theorem mem_topIndices_lt {scores : List ℚ} {limit i : Nat}
    (hi : i ∈ topIndices scores limit) : i < scores.length := by
  have h1 : i ∈ (argsortStable scores).reverse :=
    (List.take_sublist _ _).mem hi
  have h2 : i ∈ argsortStable scores := List.mem_reverse.mp h1
  exact List.mem_range.mp ((argsortStable_perm scores).mem_iff.mp h2)

theorem topIndices_pairwise (scores : List ℚ) (limit : Nat) :
    (topIndices scores limit).Pairwise (fun a b => rankLE scores b a) :=
  List.Pairwise.sublist (List.take_sublist _ _)
    (List.pairwise_reverse.mpr (argsortStable_sorted scores))

theorem length_topIndices (scores : List ℚ) (limit : Nat) :
    (topIndices scores limit).length = min limit scores.length := by
  simp [topIndices, argsortStable]

/-! ## Helper lemmas: branch equations of `search` -/

theorem search_eq_of_dataFor_none {store : FileVectorStore} {name : String}
    (sim : List ℚ → List ℚ → ℚ) (q : List ℚ) (limit : Nat)
    (filters : Option Metadata) (hdf : dataFor store name = none) :
    search sim store name q limit filters = .ok [] := by
  unfold search
  rw [hdf]

theorem search_eq_of_dataFor_some {store : FileVectorStore} {name : String}
    {data : List FlatRecord} (sim : List ℚ → List ℚ → ℚ) (q : List ℚ)
    (limit : Nat) (filters : Option Metadata)
    (hdf : dataFor store name = some data) :
    search sim store name q limit filters =
      if data = [] then .ok []
      else
        match uniformDim (effFiltered data filters) with
        | none => .error .inhomogeneous
        | some d =>
          if q.length ≠ d then .error (.dimensionMismatch q.length d)
          else .ok ((topIndices (scoresOf sim q (effFiltered data filters)) limit).map
            (mkResult (effFiltered data filters)
              (scoresOf sim q (effFiltered data filters)))) := by
  unfold search
  rw [hdf]

theorem search_eq_of_uniform {store : FileVectorStore} {name : String}
    {data : List FlatRecord} {d : Nat} (sim : List ℚ → List ℚ → ℚ)
    (q : List ℚ) (limit : Nat) (filters : Option Metadata)
    (hdf : dataFor store name = some data) (hne : data ≠ [])
    (hud : uniformDim (effFiltered data filters) = some d) :
    search sim store name q limit filters =
      if q.length ≠ d then .error (.dimensionMismatch q.length d)
      else .ok ((topIndices (scoresOf sim q (effFiltered data filters)) limit).map
        (mkResult (effFiltered data filters)
          (scoresOf sim q (effFiltered data filters)))) := by
  rw [search_eq_of_dataFor_some sim q limit filters hdf, if_neg hne, hud]

theorem search_ok_elim {sim : List ℚ → List ℚ → ℚ} {store : FileVectorStore}
    {name : String} {q : List ℚ} {limit : Nat} {filters : Option Metadata}
    {results : List SearchResult}
    (h : search sim store name q limit filters = .ok results) :
    results = [] ∨
      ∃ data d, dataFor store name = some data ∧ data ≠ [] ∧
        uniformDim (effFiltered data filters) = some d ∧ q.length = d ∧
        results = (topIndices (scoresOf sim q (effFiltered data filters)) limit).map
          (mkResult (effFiltered data filters)
            (scoresOf sim q (effFiltered data filters))) := by
  cases hdf : dataFor store name with
  | none =>
    rw [search_eq_of_dataFor_none sim q limit filters hdf] at h
    exact Or.inl (Except.ok.inj h).symm
  | some data =>
    by_cases hne : data = []
    · rw [search_eq_of_dataFor_some sim q limit filters hdf, if_pos hne] at h
      exact Or.inl (Except.ok.inj h).symm
    · cases hud : uniformDim (effFiltered data filters) with
      | none =>
        have hs : search sim store name q limit filters = .error .inhomogeneous := by
          rw [search_eq_of_dataFor_some sim q limit filters hdf, if_neg hne, hud]
        rw [hs] at h
        exact absurd h (by simp)
      | some d =>
        rw [search_eq_of_uniform sim q limit filters hdf hne hud] at h
        by_cases hq : q.length ≠ d
        · rw [if_pos hq] at h
          exact absurd h (by simp)
        · rw [if_neg hq] at h
          exact Or.inr ⟨data, d, rfl, hne, hud, not_not.mp hq,
            (Except.ok.inj h).symm⟩

end FileVectorStore

/-! ## Claim theorems -/

/-- **C1** — Searching a collection whose stored records all have
embedding length `d` with a query vector of a different length fails with
the dimension-mismatch error (`sklearn`'s shape validation on the query
and record matrices) before any similarity score is computed — the
conclusion holds for *every* similarity kernel `sim`, so no score value
ever influences it — rather than truncating, padding or scoring. -/
theorem search_dimension_mismatch
    (sim : List ℚ → List ℚ → ℚ) (store : FileVectorStore) (name : String)
    (q : List ℚ) (limit : Nat) (filters : Option Metadata)
    (data : List FlatRecord) (d : Nat)
    (hdf : FileVectorStore.dataFor store name = some data) (hne : data ≠ [])
    (hdim : ∀ r ∈ data, r.embedding.length = d) (hq : q.length ≠ d) :
    FileVectorStore.search sim store name q limit filters =
      .error (.dimensionMismatch q.length d) := by
  have hud : FileVectorStore.uniformDim (FileVectorStore.effFiltered data filters) =
      some d :=
    FileVectorStore.uniformDim_eq_some (FileVectorStore.effFiltered_ne_nil filters hne)
      (fun r hr => hdim r (FileVectorStore.mem_of_mem_effFiltered hr))
  rw [FileVectorStore.search_eq_of_uniform sim q limit filters hdf hne hud, if_pos hq]

/-- Witness for C1: a length-2 query against one-dimensional stored
embeddings errors out with the mismatch of widths 2 and 1. -/
theorem search_dimension_mismatch_witness :
    FileVectorStore.search simEx exStore "devops_incidents" [1, 2] 5 none =
      .error (.dimensionMismatch 2 1) :=
  search_dimension_mismatch simEx exStore "devops_incidents" [1, 2] 5 none
    [recA, recB] 1 (by decide) (by decide) (by decide) (by decide)

/-- **C4** — When no record of a non-empty collection matches the filter,
`search` with that filter behaves exactly as `search` with no filter (the
silent fallback of lines 80–82), and in particular returns a non-empty
result list for a positive `limit` instead of an empty one. -/
theorem search_filter_fallback
    (sim : List ℚ → List ℚ → ℚ) (store : FileVectorStore) (name : String)
    (q : List ℚ) (limit : Nat) (fs : Metadata)
    (data : List FlatRecord) (d : Nat)
    (hdf : FileVectorStore.dataFor store name = some data) (hne : data ≠ [])
    (hdim : ∀ r ∈ data, r.embedding.length = d) (hq : q.length = d)
    (hpos : 0 < limit)
    (hnm : ∀ r ∈ data, FileVectorStore.matchesFilters fs r.metadata = false) :
    FileVectorStore.search sim store name q limit (some fs) =
      FileVectorStore.search sim store name q limit none ∧
    ∃ results, FileVectorStore.search sim store name q limit (some fs) = .ok results ∧
      results ≠ [] := by
  have he1 : FileVectorStore.effFiltered data (some fs) = data :=
    FileVectorStore.effFiltered_of_no_match hnm
  have he2 : FileVectorStore.effFiltered data none = data :=
    FileVectorStore.effFiltered_none data
  have hud : FileVectorStore.uniformDim data = some d :=
    FileVectorStore.uniformDim_eq_some hne hdim
  have hudf : FileVectorStore.uniformDim (FileVectorStore.effFiltered data (some fs)) =
      some d := by rw [he1]; exact hud
  have hudn : FileVectorStore.uniformDim (FileVectorStore.effFiltered data none) =
      some d := by rw [he2]; exact hud
  have hqq : ¬ q.length ≠ d := fun h => h hq
  have hs1 := FileVectorStore.search_eq_of_uniform sim q limit (some fs) hdf hne hudf
  have hs2 := FileVectorStore.search_eq_of_uniform sim q limit none hdf hne hudn
  rw [if_neg hqq] at hs1 hs2
  constructor
  · rw [hs1, hs2, he1, he2]
  · refine ⟨_, hs1, fun hnil => ?_⟩
    have hlen : ((FileVectorStore.topIndices
        (FileVectorStore.scoresOf sim q (FileVectorStore.effFiltered data (some fs)))
        limit).map
          (FileVectorStore.mkResult (FileVectorStore.effFiltered data (some fs))
            (FileVectorStore.scoresOf sim q
              (FileVectorStore.effFiltered data (some fs))))).length =
        min limit data.length := by
      rw [List.length_map, FileVectorStore.length_topIndices]
      simp [FileVectorStore.scoresOf, he1]
    have h0 : (0:Nat) < data.length := List.length_pos.mpr hne
    rw [hnil] at hlen
    simp only [List.length_nil] at hlen
    omega

/-- Witness for C4: a filter no record satisfies, searched with limit 5
over the two-record store, returns the same non-empty results as the
unfiltered search. -/
theorem search_filter_fallback_witness :
    FileVectorStore.search simEx exStore "devops_incidents" [1] 5
        (some [("service", .s "nope")]) =
      FileVectorStore.search simEx exStore "devops_incidents" [1] 5 none ∧
    ∃ results, FileVectorStore.search simEx exStore "devops_incidents" [1] 5
        (some [("service", .s "nope")]) = .ok results ∧ results ≠ [] :=
  search_filter_fallback simEx exStore "devops_incidents" [1] 5
    [("service", .s "nope")] [recA, recB] 1 (by decide) (by decide)
    (by decide) (by decide) (by decide) (by decide)

/-- **C6** (counterexample) — calling `search` with the unknown collection
name `"metrics"` does *not* fail: it succeeds with an empty result list
(the code logs the unknown name and returns `[]`; no
`UnknownCollectionError` exists anywhere in the code). -/
theorem search_unknown_collection_counterexample :
    FileVectorStore.search simEx exStore "metrics" [1] 5 none = .ok [] := by
  decide

/-- **C6** (amended) — for any collection name whose lowercase form
contains neither `"incident"` nor `"runbook"` as a substring, `search`
returns successfully with an empty result list (after logging an error)
instead of raising. -/
theorem search_unknown_collection_returns_empty
    (sim : List ℚ → List ℚ → ℚ) (store : FileVectorStore) (name : String)
    (q : List ℚ) (limit : Nat) (filters : Option Metadata)
    (h1 : pyIn "incident" (pyLower name) = false)
    (h2 : pyIn "runbook" (pyLower name) = false) :
    FileVectorStore.search sim store name q limit filters = .ok [] := by
  apply FileVectorStore.search_eq_of_dataFor_none
  unfold FileVectorStore.dataFor
  rw [h1, h2]
  simp

/-- Witness for the amended C6 at the concrete name `"qdrant_backup"`. -/
theorem search_unknown_collection_returns_empty_witness :
    FileVectorStore.search simEx exStore "qdrant_backup" [1, 2, 3] 7 none =
      .ok [] :=
  search_unknown_collection_returns_empty simEx exStore "qdrant_backup"
    [1, 2, 3] 7 none (by decide) (by decide)

/-- **C7** — `add_documents` with an empty document list fails with the
empty-input error (`ValueError("Cannot add empty documents")`), for every
prior server state, embedding gateway and id stream: the check precedes
`create_collection`, the embedding call and the upsert, so no state
change occurs — the error is returned without a successor state. -/
theorem add_documents_empty_input (mgr : VectorStoreManager)
    (embed : List String → List (List ℚ)) (freshId : Nat → String)
    (st : ClientState) :
    mgr.add_documents embed freshId st [] = .error .emptyInput := rfl

/-- **C8** — `create_collection` is idempotent and total: calling it on a
state whose collection list already contains the manager's collection
name leaves the state (configuration and contents of every collection)
unchanged, and a second call after a first one is always a no-op. -/
theorem create_collection_idempotent (mgr : VectorStoreManager)
    (st : ClientState) :
    mgr.create_collection (mgr.create_collection st) = mgr.create_collection st ∧
    (mgr.collection_exists st = true → mgr.create_collection st = st) := by
  have hexpand : ∀ s : ClientState, mgr.create_collection s =
      if mgr.collection_exists s = true then s
      else s ++ [⟨mgr.collection_name, mgr.embedding_dim, .cosine, []⟩] := by
    intro s
    unfold VectorStoreManager.create_collection
    by_cases h : mgr.collection_exists s = true
    · rw [if_pos h]
    · rw [if_neg h]
  constructor
  · by_cases h : mgr.collection_exists st = true
    · rw [hexpand st, if_pos h, hexpand st, if_pos h]
    · have h2 : mgr.collection_exists
          (st ++ [⟨mgr.collection_name, mgr.embedding_dim, .cosine, []⟩]) = true := by
        unfold VectorStoreManager.collection_exists
        rw [List.any_append]
        simp
      rw [hexpand st, if_neg h, hexpand _, if_pos h2]
  · intro h
    rw [hexpand st, if_pos h]

/-- Witness for C8: re-creating the already-present incidents collection
leaves the concrete server state unchanged. -/
theorem create_collection_idempotent_witness :
    mgrInc.create_collection stInc = stInc :=
  (create_collection_idempotent mgrInc stInc).2 (by decide)

/-- **C10** — The `VectorStoreManager` constructor rejects any
`store_type` other than `"incidents"` and `"runbooks"` with a
`ValueError` raised before the embedding manager or the Qdrant connection
is created, and every successfully constructed instance targets exactly
the collection `"devops_" + store_type` for one of the two domains. -/
theorem init_store_type_validated (t m : String) :
    (t ≠ "incidents" → t ≠ "runbooks" →
      VectorStoreManager.init t m = .error (.invalidStoreType t)) ∧
    (∀ mgr, VectorStoreManager.init t m = .ok mgr →
      (mgr.store_type = "incidents" ∨ mgr.store_type = "runbooks") ∧
      mgr.collection_name = "devops_" ++ mgr.store_type) := by
  constructor
  · intro h1 h2
    unfold VectorStoreManager.init
    rw [if_pos ⟨h1, h2⟩]
  · intro mgr h
    unfold VectorStoreManager.init at h
    by_cases hc : t ≠ "incidents" ∧ t ≠ "runbooks"
    · rw [if_pos hc] at h
      exact absurd h (by simp)
    · rw [if_neg hc] at h
      have hmgr := Except.ok.inj h
      subst hmgr
      refine ⟨?_, rfl⟩
      rcases not_and_or.mp hc with h' | h'
      · exact Or.inl (not_not.mp h')
      · exact Or.inr (not_not.mp h')

/-- Witness for C10 at the invalid store type `"foo"`. -/
theorem init_store_type_validated_witness :
    VectorStoreManager.init "foo" "text-embedding-3-large" =
      .error (.invalidStoreType "foo") :=
  (init_store_type_validated "foo" "text-embedding-3-large").1
    (by decide) (by decide)

/-- **C5** (counterexample) — a filter value of Python type `float`
(`1.0`) against a stored Python `int` (`1`): the values have different
types, yet `_apply_filters` *retains* the record, because Python `==`
compares numeric values across `int`/`float`/`bool`.  This contradicts
"a record … with a value of a different type is treated as
non-matching". -/
theorem apply_filters_cross_type_counterexample :
    FileVectorStore.apply_filters [recI] (some [("severity", .f 1)]) = [recI] ∧
      MValue.f 1 ≠ MValue.i 1 := by
  decide

/-- **C5** (amended) — with a non-empty filter dict, `_apply_filters`
retains exactly the records for which every filter key is present in the
record's metadata with a value that is *Python-equal* to the required
value; Python equality is type-sensitive between strings and numbers but
compares numeric values (`int`, `float`, `bool`) across types.  A record
missing a filter key, or whose value differs, is dropped without
raising (`_apply_filters` is a total function). -/
theorem apply_filters_membership
    (data : List FlatRecord) (fs : Metadata) (r : FlatRecord) (hfs : fs ≠ []) :
    r ∈ FileVectorStore.apply_filters data (some fs) ↔
      r ∈ data ∧ ∀ kv ∈ fs, ∃ w, mget? r.metadata kv.1 = some w ∧
        pyEq w kv.2 = true := by
  have hm : ∀ m : Metadata, FileVectorStore.matchesFilters fs m = true ↔
      ∀ kv ∈ fs, ∃ w, mget? m kv.1 = some w ∧ pyEq w kv.2 = true := by
    intro m
    unfold FileVectorStore.matchesFilters
    rw [List.all_eq_true]
    constructor
    · intro h kv hkv
      have hk := h kv hkv
      cases hw : mget? m kv.1 with
      | none => rw [hw] at hk; exact absurd hk (by simp)
      | some w => rw [hw] at hk; exact ⟨w, rfl, hk⟩
    · intro h kv hkv
      rcases h kv hkv with ⟨w, hw, he⟩
      rw [hw]
      exact he
  rw [FileVectorStore.apply_filters_some, if_neg hfs, List.mem_filter]
  exact and_congr Iff.rfl (hm r.metadata)

/-- Witness for the amended C5: the stored int 1 matches the filter value
int 1 (key present, Python-equal), so the record passes the filter. -/
theorem apply_filters_membership_witness :
    recI ∈ [recI] ∧ ∀ kv ∈ ([("severity", MValue.i 1)] : Metadata),
      ∃ w, mget? recI.metadata kv.1 = some w ∧ pyEq w kv.2 = true :=
  (apply_filters_membership [recI] [("severity", .i 1)] recI (by decide)).1
    (by decide)

/-- **C2** (counterexample) — `recA` and `recB` are stored in this order
and receive the *same* score 1 for the query; yet the search returns the
record stored second (`"b"`) before the record stored first (`"a"`):
`np.argsort(...)[::-1]` reverses the ascending stable order, so equal
scores come out in *reverse* storage order, not original storage
order. -/
theorem search_tie_counterexample :
    FileVectorStore.search simEx exStore "devops_incidents" [1] 2 none =
      .ok [⟨"b", 1, [("service", .s "k8s")], [("service", .s "k8s")],
            "OOM on worker pod"⟩,
           ⟨"a", 1, [("service", .s "db")], [("service", .s "db")],
            "DB pool exhausted"⟩] := by
  decide

/-- **C3** — evaluating the ingest-then-export pipeline at the spec's own
sample document.  `add_documents` stores the document content under the
payload key `"content"`, but `export_collection` reads the payload key
`"text"` (and dumps the whole payload as `metadata`); so the exported —
and hence flat-file-loaded — record carries `text = ""` instead of the
ingested content, and a metadata map polluted with the `"content"` entry.
The round-trip property the spec states (and which the export script's
stated purpose, feeding the flat-file RAG, requires) fails: this is a
key-naming slip in `export_collection`/`add_documents`, not intended
behaviour. -/
theorem export_ingest_text_mismatch :
    VectorStoreManager.init "incidents" "text-embedding-3-large" = .ok mgrInc ∧
    (VectorStoreManager.add_documents mgrInc embedConst uuidFix [] [docDB]).map
        (fun st1 => export_collection st1 "devops_incidents") =
      .ok [{ id := "id-0", text := "",
             embedding := [1],
             metadata := [("content", .s "DB pool exhausted"),
                          ("service", .s "Database")] }] ∧
    ("" : String) ≠ "DB pool exhausted" := by
  decide

/-- Lookup of any key other than `"content"` is unchanged by removing the
`"content"` entries from a payload. -/
theorem mget?_filter_ne {p : Metadata} {k : String} (hk : ¬ k = "content") :
    mget? (p.filter (fun kv => ¬ kv.1 = "content")) k = mget? p k := by
  induction p with
  | nil => rfl
  | cons kv rest ih =>
    rw [List.filter_cons]
    by_cases hc : kv.1 = "content"
    · have hpk : ¬ kv.1 = k := fun he => hk (he ▸ hc)
      rw [if_neg (by simp [hc])]
      unfold mget?
      rw [List.find?_cons_of_neg _ (by simp [hpk])]
      exact ih
    · rw [if_pos (by simp [hc])]
      by_cases hke : kv.1 = k
      · unfold mget?
        rw [List.find?_cons_of_pos _ (by simp [hke]),
          List.find?_cons_of_pos _ (by simp [hke])]
      · unfold mget?
        rw [List.find?_cons_of_neg _ (by simp [hke]),
          List.find?_cons_of_neg _ (by simp [hke])]
        exact ih

/-- The `"content"` key is absent after removing it from a payload. -/
theorem mget?_filter_content (p : Metadata) :
    mget? (p.filter (fun kv => ¬ kv.1 = "content")) "content" = none := by
  have hfind : (p.filter (fun kv => ¬ kv.1 = "content")).find?
      (fun kv => kv.1 = "content") = none := by
    rw [List.find?_eq_none]
    intro x hx
    have hmem := (List.mem_filter.mp hx).2
    simp only [decide_eq_true_eq] at hmem ⊢
    exact hmem
  unfold mget?
  rw [hfind]
  rfl

/-- **C9** (counterexample) — in the flat-file variant the result's
metadata is the stored metadata map *unchanged*.  For a record shaped
like the export pipeline's output — whose stored metadata map contains
the `"content"` key — the returned metadata still contains `"content"`:
it is not the stored map with the text/content field excluded, so the
claimed shape (and the byte-for-byte parity with the server-hosted
variant, which does exclude `"content"`) fails. -/
theorem flat_result_metadata_counterexample :
    FileVectorStore.search (tableSim []) exStoreC "devops_incidents" [1] 1 none =
      .ok [⟨"c", 0, [("content", .s "tc"), ("service", .s "db")],
            [("content", .s "tc"), ("service", .s "db")], "tc"⟩] ∧
    ([("content", MValue.s "tc"), ("service", MValue.s "db")] : Metadata).filter
        (fun kv => ¬ kv.1 = "content") ≠
      [("content", MValue.s "tc"), ("service", MValue.s "db")] := by
  decide

/-- **C9** (amended) — the two variants shape result metadata
differently.  Server-hosted: each formatted result's metadata is the
stored payload with the `"content"` key removed (lookups of every other
key unchanged, score preserved).  Flat-file: each result carries the
stored record's metadata map unchanged — nothing is excluded — together
with the record's id and its separately surfaced text. -/
theorem result_metadata_shape
    (raw : List VectorStoreManager.ScoredPoint)
    (sim : List ℚ → List ℚ → ℚ) (store : FileVectorStore) (name : String)
    (q : List ℚ) (limit : Nat) (filters : Option Metadata)
    (results : List SearchResult) (data : List FlatRecord)
    (h : FileVectorStore.search sim store name q limit filters = .ok results)
    (hdf : FileVectorStore.dataFor store name = some data) :
    (∀ fr ∈ VectorStoreManager.format_search_results raw,
      mget? fr.metadata "content" = none ∧
      ∃ rp ∈ raw, fr.score = rp.score ∧
        ∀ k, ¬ k = "content" → mget? fr.metadata k = mget? rp.payload k) ∧
    (∀ res ∈ results, ∃ rec ∈ data,
      res.id = rec.id ∧ res.text = rec.text ∧ res.metadata = rec.metadata ∧
      res.payload = rec.metadata) := by
  constructor
  · intro fr hfr
    unfold VectorStoreManager.format_search_results at hfr
    rcases List.mem_map.mp hfr with ⟨rp, hrp, hfr'⟩
    subst hfr'
    refine ⟨mget?_filter_content rp.payload, rp, hrp, rfl, ?_⟩
    intro k hk
    exact mget?_filter_ne hk
  · intro res hres
    rcases FileVectorStore.search_ok_elim h with hnil | hmain
    · rw [hnil] at hres
      cases hres
    · rcases hmain with ⟨data', d, hdf', hne, hud, hq, heq⟩
      rw [hdf'] at hdf
      have hdd : data' = data := Option.some.inj hdf
      subst hdd
      rw [heq] at hres
      rcases List.mem_map.mp hres with ⟨i, hi, hmk⟩
      have hilt : i < (FileVectorStore.scoresOf sim q
          (FileVectorStore.effFiltered data' filters)).length :=
        FileVectorStore.mem_topIndices_lt hi
      have hilt' : i < (FileVectorStore.effFiltered data' filters).length := by
        simpa [FileVectorStore.scoresOf] using hilt
      refine ⟨(FileVectorStore.effFiltered data' filters).getD i dfltRec, ?_,
        ?_, ?_, ?_, ?_⟩
      · apply FileVectorStore.mem_of_mem_effFiltered
        rw [List.getD_eq_getElem _ dfltRec hilt']
        exact List.getElem_mem hilt'
      · rw [← hmk]; rfl
      · rw [← hmk]; rfl
      · rw [← hmk]; rfl
      · rw [← hmk]; rfl

/-- Witness for the amended C9: one raw server response element with a
content-bearing payload, and the concrete tie-fixture search results. -/
theorem result_metadata_shape_witness :
    (∀ fr ∈ VectorStoreManager.format_search_results [rawP1],
      mget? fr.metadata "content" = none ∧
      ∃ rp ∈ [rawP1], fr.score = rp.score ∧
        ∀ k, ¬ k = "content" → mget? fr.metadata k = mget? rp.payload k) ∧
    (∀ res ∈ [resTieB, resTieA], ∃ rec ∈ [recA, recB],
      res.id = rec.id ∧ res.text = rec.text ∧ res.metadata = rec.metadata ∧
      res.payload = rec.metadata) :=
  result_metadata_shape [rawP1] simEx exStore "devops_incidents" [1] 2 none
    [resTieB, resTieA] [recA, recB] (by decide) (by decide)

/-- **C2** (amended) — for every query vector, limit, filter and
collection, a successful `search` returns at most `limit` results whose
scores are non-increasing from first to last.  The order of equal-score
records is *not* a guarantee of the program (`np.argsort`'s default
quicksort scrambles ties above its small-array insertion-sort cutoff):
they need not appear in original storage order, and in the small-array
regime the observed order is its reverse (`search_tie_counterexample`).
Both conclusions here are invariant under permuting equal-score indices,
so they do not depend on the argsort model's tie order. -/
theorem search_sorted_within_limit
    (sim : List ℚ → List ℚ → ℚ) (store : FileVectorStore) (name : String)
    (q : List ℚ) (limit : Nat) (filters : Option Metadata)
    (results : List SearchResult)
    (h : FileVectorStore.search sim store name q limit filters = .ok results) :
    results.length ≤ limit ∧
    results.Pairwise (fun a b => b.score ≤ a.score) := by
  rcases FileVectorStore.search_ok_elim h with hnil | hmain
  · subst hnil
    exact ⟨Nat.zero_le _, List.Pairwise.nil⟩
  · rcases hmain with ⟨data', d, hdf', hne, hud, hq, heq⟩
    subst heq
    refine ⟨?_, ?_⟩
    · rw [List.length_map, FileVectorStore.length_topIndices]
      exact Nat.min_le_left _ _
    · rw [List.pairwise_map]
      apply (FileVectorStore.topIndices_pairwise _ limit).imp
      intro a b hr
      show FileVectorStore.scoreAt _ b ≤ FileVectorStore.scoreAt _ a
      rcases hr with h' | ⟨h', _⟩
      · exact le_of_lt h'
      · exact le_of_eq h'

/-- Witness for the amended C2 at the tie fixture: two results under
limit 2, scores non-increasing. -/
theorem search_sorted_within_limit_witness :
    ([resTieB, resTieA] : List SearchResult).length ≤ 2 ∧
    ([resTieB, resTieA] : List SearchResult).Pairwise
      (fun a b => b.score ≤ a.score) :=
  search_sorted_within_limit simEx exStore "devops_incidents" [1] 2 none
    [resTieB, resTieA] (by decide)
